import Mathlib

/-!
Verification development for `freqtrade/data/converter/orderflow.py`.

The Python module converts raw public trades into per-candle orderflow
analytics: a price-binned volume profile
(`trades_to_volumeprofile_with_total_delta_bid_ask`), diagonal bid/ask
imbalance flags (`trades_orderflow_to_imbalances`), stacked-imbalance run
scanning (`stacked_imbalance`), and an orchestrator
(`populate_dataframe_with_trades`) that groups trades by candle, writes the
results into the candle dataframe and maintains an insertion-ordered cache.

This file gives a shallow embedding of those functions over rational
numbers and Lean lists (dataframes become lists of rows; pandas `NaN`
becomes `Option.none`; float division by zero follows IEEE semantics:
`x / 0 = +inf` for `x > 0`, `0 / 0 = NaN`, and any comparison with `NaN`
is false), and proves the documented properties of those functions.
-/

set_option autoImplicit false

namespace Orderflow

/-! ## String containment (models pandas `Series.str.contains`) -/

/-- Test `charsStartWith p l`: true when `p` occurs at the head of `l`. -/
def charsStartWith : List Char → List Char → Bool
  | [], _ => true
  | _ :: _, [] => false
  | a :: as, b :: bs => a == b && charsStartWith as bs

/-- Test `charsContain p l`: true when `p` occurs contiguously anywhere in `l`. -/
def charsContain (p : List Char) : List Char → Bool
  | [] => charsStartWith p []
  | c :: rest => charsStartWith p (c :: rest) || charsContain p rest

/-- Substring test `strContains s pat`: does `s` contain `pat` as a substring?
Models `trades["side"].str.contains(pat)` in the Python source. -/
def strContains (s pat : String) : Bool :=
  charsContain pat.data s.data

/-! ## Price binning (models `(price / scale).round() * scale`) -/

/-- Round-half-to-even on rationals, as NumPy `.round()` does on floats. -/
def roundHalfEven (q : ℚ) : ℤ :=
  let f := ⌊q⌋
  let r := q - f
  if r < 1 / 2 then f
  else if 1 / 2 < r then f + 1
  else if 2 ∣ f then f else f + 1

/-! ## Data model -/

/-- One raw public trade (a row of the `trades` dataframe). -/
structure Trade where
  date : ℕ
  price : ℚ
  amount : ℚ
  side : String
deriving DecidableEq, Repr

/-- One row of the volume profile produced by
`trades_to_volumeprofile_with_total_delta_bid_ask`: the columns
`bid_amount`, `ask_amount`, `bid`, `ask` (trade counts), `delta`,
`total_volume`, `total_trades`, after the group-by-price sum. -/
structure OrderflowRow where
  bid_amount : ℚ
  ask_amount : ℚ
  bid : ℕ
  ask : ℕ
  delta : ℚ
  total_volume : ℚ
  total_trades : ℕ
deriving DecidableEq, Repr

/-! ## Volume profile builder (`trades_to_volumeprofile_with_total_delta_bid_ask`,
orderflow.py lines 201-228) -/

/-- Column `np.where(trades["side"].str.contains("sell"), trades["amount"], 0)`. -/
def tradeBidAmount (t : Trade) : ℚ :=
  if strContains t.side "sell" then t.amount else 0

/-- Column `np.where(trades["side"].str.contains("buy"), trades["amount"], 0)`. -/
def tradeAskAmount (t : Trade) : ℚ :=
  if strContains t.side "buy" then t.amount else 0

/-- Column `np.where(trades["side"].str.contains("sell"), 1, 0)`. -/
def tradeBidCount (t : Trade) : ℕ :=
  if strContains t.side "sell" then 1 else 0

/-- Column `np.where(trades["side"].str.contains("buy"), 1, 0)`. -/
def tradeAskCount (t : Trade) : ℕ :=
  if strContains t.side "buy" then 1 else 0

/-- Binning `((trades["price"] / scale).round() * scale)`: the price bin of a trade. -/
def binnedPrice (scale : ℚ) (t : Trade) : ℚ :=
  (roundHalfEven (t.price / scale) : ℚ) * scale

/-- Insert into an ascending list (helper for the sorted group-by keys
that pandas `groupby` produces). -/
def insertSorted {α : Type} [LinearOrder α] (p : α) : List α → List α
  | [] => [p]
  | q :: qs => if p ≤ q then p :: q :: qs else q :: insertSorted p qs

/-- Insertion sort, ascending. -/
def sortAsc {α : Type} [LinearOrder α] (l : List α) : List α :=
  l.foldr insertSorted []

/-- The summed row of one price bin: group-by sum of the per-trade columns
over the trades falling into bin `p`. -/
def binRow (trades : List Trade) (scale p : ℚ) : OrderflowRow :=
  let g := trades.filter fun t => decide (binnedPrice scale t = p)
  { bid_amount := (g.map tradeBidAmount).sum
    ask_amount := (g.map tradeAskAmount).sum
    bid := (g.map tradeBidCount).sum
    ask := (g.map tradeAskCount).sum
    delta := (g.map fun t => tradeAskAmount t - tradeBidAmount t).sum
    total_volume := (g.map fun t => tradeAskAmount t + tradeBidAmount t).sum
    total_trades := (g.map fun t => tradeAskCount t + tradeBidCount t).sum }

/-- Source function `trades_to_volumeprofile_with_total_delta_bid_ask` (lines 201-228):
per-trade bid/ask indicator columns, price binned to the nearest multiple
of `scale`, then `groupby("price").sum()` with bins ascending by price.
An empty trades input yields the empty profile. -/
def trades_to_volumeprofile_with_total_delta_bid_ask
    (trades : List Trade) (scale : ℚ) : List (ℚ × OrderflowRow) :=
  (sortAsc ((trades.map (binnedPrice scale)).dedup)).map
    fun p => (p, binRow trades scale p)

/-! ## Imbalance detector (`trades_orderflow_to_imbalances`, lines 231-252) -/

/-- One row of the imbalance table: the columns `bid_imbalance` and
`ask_imbalance`. -/
structure ImbalanceRow where
  bid_imbalance : Bool
  ask_imbalance : Bool
deriving DecidableEq, Repr

/-- Shift `pd.Series.shift(-1)`: element `i` of the result is element `i+1` of the
input, with `none` (NaN) past the end. -/
def shiftUp {α : Type} (l : List α) : List (Option α) :=
  (List.range l.length).map fun i => l[i + 1]?

/-- Float semantics of `num / den > r` for nonnegative series values:
`x / 0 = +inf > r` when `x > 0`, `0 / 0 = NaN` and the comparison with `NaN`
is false, otherwise the exact rational comparison. -/
def ratSeriesGT (num den r : ℚ) : Bool :=
  if den = 0 then decide (0 < num) else decide (r < num / den)

/-- Source function `trades_orderflow_to_imbalances` (lines 231-252): diagonal comparison of
the `bid` column against the shifted `ask` column (both are the *trade count*
columns of the profile), then the `total_volume < imbalance_volume` filter
forcing both flags to false.  A `NaN` in the shifted series makes both raw
comparisons false. -/
def trades_orderflow_to_imbalances (df : List (ℚ × OrderflowRow))
    (imbalance_ratio imbalance_volume : ℚ) : List (ℚ × ImbalanceRow) :=
  let bid : List ℚ := df.map fun pr => (pr.2.bid : ℚ)
  let ask : List (Option ℚ) := shiftUp (df.map fun pr => (pr.2.ask : ℚ))
  let bid_imbalance : List Bool :=
    List.zipWith (fun b a? => (a?.map fun a => ratSeriesGT b a imbalance_ratio).getD false)
      bid ask
  let ask_imbalance : List Bool :=
    List.zipWith (fun b a? => (a?.map fun a => ratSeriesGT a b imbalance_ratio).getD false)
      bid ask
  List.zipWith
    (fun pr fl =>
      (pr.1,
        { bid_imbalance := if pr.2.total_volume < imbalance_volume then false else fl.1
          ask_imbalance := if pr.2.total_volume < imbalance_volume then false else fl.2 }))
    df (List.zipWith (fun a b => (a, b)) bid_imbalance ask_imbalance)

/-! ## Stacked imbalance scanner (`stacked_imbalance`, lines 255-285) -/

/-- Run ids `(int_series != int_series.shift()).cumsum()`: assign each position the
running count of change points up to it, so that positions share an id
exactly when they lie in the same run of equal consecutive values.  `prev`
is the previous value (`none` at the start, where the comparison with the
shifted-in `NaN` always counts as a change) and `gid` the current id. -/
def groupIdsGo (prev : Option ℕ) (gid : ℕ) : List ℕ → List ℕ
  | [] => []
  | x :: xs =>
    let gid' := if prev = some x then gid else gid + 1
    gid' :: groupIdsGo (some x) gid' xs

/-- The run ids of a 0/1 series, starting from no previous value. -/
def groupIds (l : List ℕ) : List ℕ :=
  groupIdsGo none 0 l

/-- Cumulative count `groupby(ids).cumcount()`: each position gets the number of earlier
positions carrying the same id; `seen` is the list of ids already passed. -/
def cumcountGo (seen : List ℕ) : List ℕ → List ℕ
  | [] => []
  | x :: xs => seen.count x :: cumcountGo (seen ++ [x]) xs

/-- The stacked-run series
`y * (y.groupby((y != y.shift()).cumsum()).cumcount() + 1)` of a 0/1 series. -/
def stackedSeries (ints : List ℕ) : List ℕ :=
  List.zipWith (fun v c => v * (c + 1)) ints (cumcountGo [] (groupIds ints))

/-- Source function `stacked_imbalance` (lines 255-285): select the requested flag column,
build the stacked-run series, take the positions where it reaches
`stacked_imbalance_range`, and return the price at the first such position
(`np.flipud`, i.e. the last one, when `should_reverse`); `none` (NaN) when
there is no such position. -/
def stacked_imbalance (df : List (ℚ × ImbalanceRow)) (useAsk : Bool)
    (stacked_imbalance_range : ℤ) (should_reverse : Bool) : Option ℚ :=
  let imbalance : List Bool :=
    df.map fun pr => if useAsk then pr.2.ask_imbalance else pr.2.bid_imbalance
  let int_series : List ℕ := imbalance.map fun b => if b then 1 else 0
  let stacked := stackedSeries int_series
  let max_stacked_imbalance_idx :=
    (List.range stacked.length).filter fun i =>
      decide (stacked_imbalance_range ≤ (stacked.getD i 0 : ℤ))
  (if should_reverse then max_stacked_imbalance_idx.reverse
   else max_stacked_imbalance_idx).head?.bind fun idx => df[idx]?.map Prod.fst

/-- Source function `stacked_imbalance_ask` (lines 280-281). -/
def stacked_imbalance_ask (df : List (ℚ × ImbalanceRow))
    (stacked_imbalance_range : ℤ) : Option ℚ :=
  stacked_imbalance df true stacked_imbalance_range true

/-- Source function `stacked_imbalance_bid` (lines 284-285). -/
def stacked_imbalance_bid (df : List (ℚ × ImbalanceRow))
    (stacked_imbalance_range : ℤ) : Option ℚ :=
  stacked_imbalance df false stacked_imbalance_range false

/-! ## Orchestrator (`populate_dataframe_with_trades`, lines 70-198) -/

/-- Modelled from the spec: the run-mode flag from `freqtrade.enums`
(that module is outside this file's source); the spec distinguishes live
(`live`) and simulated-live (`dry_run`) from every other mode, and the
source tests membership in `(RunMode.DRY_RUN, RunMode.LIVE)`. -/
inductive RunMode where
  | live
  | dry_run
  | backtest
  | other
deriving DecidableEq, Repr

/-- The `config["orderflow"]` block plus the run mode consumed by the
orchestrator. -/
structure OrderflowConfig where
  max_candles : ℕ
  scale : ℚ
  imbalance_ratio : ℚ
  imbalance_volume : ℚ
  stacked_imbalance_range : ℤ
  cache_size : ℕ
  runmode : RunMode
deriving DecidableEq, Repr

/-- One row of the OHLCV dataframe: its `date`, a stand-in pre-existing
OHLCV value, and the `ADDED_COLUMNS`, each `Option`-valued with `none` for
the `NaN` they are initialized to. -/
structure CandleRow where
  date : ℕ
  openPrice : ℚ
  trades : Option (List Trade)
  orderflow : Option (List (ℚ × OrderflowRow))
  imbalances : Option (List (ℚ × ImbalanceRow))
  stacked_imbalances_bid : Option (Option ℚ)
  stacked_imbalances_ask : Option (Option ℚ)
  max_delta : Option ℚ
  min_delta : Option ℚ
  bid : Option ℚ
  ask : Option ℚ
  delta : Option ℚ
  total_trades : Option ℕ
deriving DecidableEq, Repr

/-- Source function `_init_dataframe_with_trades_columns` on one row (lines 35-52): every
added column is set to `NaN`, the pre-existing columns are untouched. -/
def initRow (r : CandleRow) : CandleRow :=
  { r with
    trades := none, orderflow := none, imbalances := none,
    stacked_imbalances_bid := none, stacked_imbalances_ask := none,
    max_delta := none, min_delta := none, bid := none, ask := none,
    delta := none, total_trades := none }

/-- All added columns of a row hold the unset (`NaN`) value. -/
def rowUnset (r : CandleRow) : Prop :=
  r.trades = none ∧ r.orderflow = none ∧ r.imbalances = none ∧
  r.stacked_imbalances_bid = none ∧ r.stacked_imbalances_ask = none ∧
  r.max_delta = none ∧ r.min_delta = none ∧ r.bid = none ∧ r.ask = none ∧
  r.delta = none ∧ r.total_trades = none

/-- The `cached_grouped_trades` OrderedDict: an insertion-ordered
association list keyed by `(candle_start, candle_next)`. -/
abbrev Cache : Type :=
  List ((ℕ × ℕ) × CandleRow)

/-- OrderedDict membership lookup. -/
def cacheLookup (c : Cache) (k : ℕ × ℕ) : Option CandleRow :=
  (c.find? fun kv => decide (kv.1 = k)).map Prod.snd

/-- OrderedDict assignment `cache[key] = value`: replace in place when the
key is present (keeping its insertion position), append otherwise. -/
def cacheInsert (c : Cache) (k : ℕ × ℕ) (v : CandleRow) : Cache :=
  if c.any (fun kv => decide (kv.1 = k)) then
    c.map fun kv => if kv.1 = k then (k, v) else kv
  else c ++ [(k, v)]

/-- The cache-size maintenance of lines 184-189: in `DRY_RUN` or `LIVE`
run mode, when the cache holds more than `cache_size` entries, drop the
earliest-inserted one (`popitem(last=False)`); otherwise leave it alone. -/
def maintainCache (rm : RunMode) (cache_size : ℕ) (c : Cache) : Cache :=
  if (rm = RunMode.dry_run ∨ rm = RunMode.live) ∧ cache_size < c.length then
    c.tail
  else c

/-- Running cumulative sum (`cumsum()`), carrying the accumulator. -/
def cumsumGo (acc : ℚ) : List ℚ → List ℚ
  | [] => []
  | x :: xs => (acc + x) :: cumsumGo (acc + x) xs

/-- Maximum of a list of rationals, `none` on the empty list. -/
def listMax : List ℚ → Option ℚ
  | [] => none
  | x :: xs => some (xs.foldl max x)

/-- Minimum of a list of rationals, `none` on the empty list. -/
def listMin : List ℚ → Option ℚ
  | [] => none
  | x :: xs => some (xs.foldl min x)

/-- The per-candle computation of lines 132-177 on the row `r` matching the
group: attach the trade records, the volume profile, the imbalance table and
both stacked prices, then the running-delta extrema and the interval totals. -/
def computeRow (cfg : OrderflowConfig) (trades_grouped_df : List Trade)
    (r : CandleRow) : CandleRow :=
  let orderflow := trades_to_volumeprofile_with_total_delta_bid_ask
    trades_grouped_df cfg.scale
  let imbalances := trades_orderflow_to_imbalances orderflow
    cfg.imbalance_ratio cfg.imbalance_volume
  let bidSeries := trades_grouped_df.map fun t =>
    if strContains t.side "sell" then t.amount else 0
  let askSeries := trades_grouped_df.map fun t =>
    if strContains t.side "buy" then t.amount else 0
  let deltas_per_trade := List.zipWith (fun a b => a - b) askSeries bidSeries
  let cums := cumsumGo 0 deltas_per_trade
  let bidSum := bidSeries.sum
  let askSum := askSeries.sum
  { r with
    trades := some trades_grouped_df
    orderflow := some orderflow
    imbalances := some imbalances
    stacked_imbalances_bid :=
      some (stacked_imbalance_bid imbalances cfg.stacked_imbalance_range)
    stacked_imbalances_ask :=
      some (stacked_imbalance_ask imbalances cfg.stacked_imbalance_range)
    max_delta := listMax cums
    min_delta := listMin cums
    bid := some bidSum
    ask := some askSum
    delta := some (askSum - bidSum)
    total_trades := some trades_grouped_df.length }

/-- Write `v` into the first row whose `date` is `d`
(`index = dataframe.index[is_between][0]; dataframe.at[index, ...]`). -/
def writeFirst (d : ℕ) (v : CandleRow) : List CandleRow → List CandleRow
  | [] => []
  | r :: rs => if r.date = d then v :: rs else r :: writeFirst d v rs

/-- Write `v` into every row whose `date` is `d`
(`dataframe.loc[is_between, ...] = ...`, the cache-hit path). -/
def writeAll (d : ℕ) (v : CandleRow) (df : List CandleRow) : List CandleRow :=
  df.map fun r => if r.date = d then v else r

/-- The body of the per-group loop (lines 108-191).  `nextDate` is the
external `timeframe_to_next_date` resolver.  A group whose candle start
matches no row is skipped; a cache hit copies the stored row back and leaves
the cache alone; otherwise the row is computed, written, inserted into the
cache, and the cache size is maintained. -/
def processGroup (cfg : OrderflowConfig) (nextDate : ℕ → ℕ)
    (st : List CandleRow × Cache) (g : ℕ × List Trade) :
    List CandleRow × Cache :=
  let df := st.1
  let cache := st.2
  let candle_start := g.1
  match df.find? fun r => decide (r.date = candle_start) with
  | none => (df, cache)
  | some r0 =>
    let candle_next := nextDate candle_start
    match cacheLookup cache (candle_start, candle_next) with
    | some cache_entry => (writeAll candle_start cache_entry df, cache)
    | none =>
      let newRow := computeRow cfg g.2 r0
      (writeFirst candle_start newRow df,
        maintainCache cfg.runmode cfg.cache_size
          (cacheInsert cache (candle_start, candle_next) newRow))

/-- A Python exception escaping the processing steps; `indexError` is
`dataframe.tail(max_candles).date.iat[0]` on an empty selection. -/
inductive PyError where
  | indexError
deriving DecidableEq, Repr

/-- The exception type raised to the caller: `DependencyException(e)`
wrapping the original cause. -/
inductive FtError where
  | dependencyException (cause : PyError)
deriving DecidableEq, Repr

/-- Tail `df.tail(n)`: the last `n` rows. -/
def listTail {α : Type} (n : ℕ) (l : List α) : List α :=
  l.drop (l.length - n)

/-- The trade groups of lines 104-105: distinct candle starts ascending
(`groupby` sorts its keys), each with its trades in arrival order.
`floorDate` is the external resample-floor resolver assigning each trade
its `candle_start`. -/
def groupTrades (floorDate : ℕ → ℕ) (trades : List Trade) :
    List (ℕ × List Trade) :=
  (sortAsc ((trades.map fun t => floorDate t.date).dedup)).map fun k =>
    (k, trades.filter fun t => decide (floorDate t.date = k))

/-- The `try` block of lines 92-192: resolve candle starts, window the
trades to the last `max_candles` candles, group them, and fold the
per-group loop; the `iat[0]` on an empty tail raises `indexError`. -/
def populateBody (cfg : OrderflowConfig) (nextDate floorDate : ℕ → ℕ)
    (cached_grouped_trades : Cache) (dataframe : List CandleRow)
    (trades : List Trade) : Except PyError (List CandleRow × Cache) :=
  match (listTail cfg.max_candles dataframe).head? with
  | none => Except.error PyError.indexError
  | some firstTailRow =>
    let start_date := firstTailRow.date
    let windowed := trades.filter fun t => decide (start_date ≤ floorDate t.date)
    let groups := groupTrades floorDate windowed
    Except.ok (groups.foldl (processGroup cfg nextDate)
      (dataframe, cached_grouped_trades))

/-- Source function `populate_dataframe_with_trades` (lines 70-198): initialize the added
columns, return immediately when there are no trades (`None` or empty),
otherwise run the body and wrap any escaping exception in a
`DependencyException`. -/
def populate_dataframe_with_trades (cfg : OrderflowConfig)
    (nextDate floorDate : ℕ → ℕ) (cached_grouped_trades : Cache)
    (dataframe : List CandleRow) (trades : Option (List Trade)) :
    Except FtError (List CandleRow × Cache) :=
  let df1 := dataframe.map initRow
  match trades with
  | none => Except.ok (df1, cached_grouped_trades)
  | some ts =>
    if ts.isEmpty then Except.ok (df1, cached_grouped_trades)
    else
      match populateBody cfg nextDate floorDate cached_grouped_trades df1 ts with
      | Except.ok out => Except.ok out
      | Except.error e => Except.error (FtError.dependencyException e)

/-! ## Specification-side definitions and concrete inputs -/

/-- The claim's notion: the length of the run of consecutive `true` values
ending at each position (a run breaks at any `false`), carrying the
current run length `r`. -/
def runsGo (r : ℕ) : List Bool → List ℕ
  | [] => []
  | b :: bs => if b then (r + 1) :: runsGo (r + 1) bs else 0 :: runsGo 0 bs

/-- The run lengths of a boolean sequence, starting outside any run. -/
def runLens (bs : List Bool) : List ℕ :=
  runsGo 0 bs

/-- The claim's qualifying positions: those whose ending-run length is at
least `range`. -/
def qualifyingIdxs (bs : List Bool) (range : ℤ) : List ℕ :=
  (List.range bs.length).filter fun i =>
    decide (range ≤ ((runLens bs).getD i 0 : ℤ))

/-- The claim's own formula for `bid_imbalance[i]`, following the spec's
words: the ratio of *amounts* `bid_amount[i] / ask_amount[i+1]` compared
against `imbalance_ratio`, subject to the `total_volume` filter.  Kept
separate from the source embedding so the two can be compared. -/
def specAmountBidImbalance (df : List (ℚ × OrderflowRow)) (ratio vol : ℚ)
    (i : ℕ) : Bool :=
  match df[i]?, df[i + 1]? with
  | some pr, some nx =>
    if pr.2.total_volume < vol then false
    else decide (ratio < pr.2.bid_amount / nx.2.ask_amount)
  | _, _ => false

/-- Two trades one price level apart: a sell of amount 100 at 100 and a buy
of amount 1 at 101, so `bid_amount[0] / ask_amount[1] = 100` but both trade
counts are 1. -/
def c1Trades : List Trade :=
  [⟨0, 100, 100, "sell"⟩, ⟨0, 101, 1, "buy"⟩]

/-- The volume profile of those two trades at scale 1. -/
def c1Profile : List (ℚ × OrderflowRow) :=
  trades_to_volumeprofile_with_total_delta_bid_ask c1Trades 1

/-- A candle row at date `d` with no added field set. -/
def mkRow (d : ℕ) : CandleRow :=
  ⟨d, 0, none, none, none, none, none, none, none, none, none, none, none⟩

/-- A small concrete configuration for witnesses. -/
def demoCfg : OrderflowConfig :=
  ⟨3, 1 / 2, 3, 0, 3, 2, RunMode.backtest⟩

/-- The three trades of the spec's concrete scenario for the interval
`[10:00, 10:01)`: a buy of 2 at 100.0, a sell of 1 at 100.0, a buy of 5 at
100.5. -/
def c5Trades : List Trade :=
  [⟨0, 100, 2, "buy"⟩, ⟨0, 100, 1, "sell"⟩, ⟨0, 201 / 2, 5, "buy"⟩]

/-! ## Index characterization of the imbalance detector -/

theorem shiftUp_getElem? {α : Type} (l : List α) (i : ℕ) :
    (shiftUp l)[i]? = if i < l.length then some l[i + 1]? else none := by
  unfold shiftUp
  rcases Nat.lt_or_ge i l.length with h | h
  · simp [List.getElem?_range h, h]
  · simp [List.getElem?_eq_none h, Nat.not_lt.mpr h, h]

/-- Pointwise value of the imbalance table: row `i` keeps the price of
profile row `i`; each flag is false under the volume filter, false at the
top bin (no `i+1`), and otherwise the diagonal count-ratio comparison. -/
theorem trades_orderflow_to_imbalances_getElem? (df : List (ℚ × OrderflowRow))
    (ratio vol : ℚ) (i : ℕ) :
    (trades_orderflow_to_imbalances df ratio vol)[i]? =
      df[i]?.map fun pr =>
        (pr.1,
          { bid_imbalance := if pr.2.total_volume < vol then false
              else (df[i + 1]?.map fun nx =>
                ratSeriesGT (pr.2.bid : ℚ) (nx.2.ask : ℚ) ratio).getD false
            ask_imbalance := if pr.2.total_volume < vol then false
              else (df[i + 1]?.map fun nx =>
                ratSeriesGT (nx.2.ask : ℚ) (pr.2.bid : ℚ) ratio).getD false }) := by
  unfold trades_orderflow_to_imbalances
  simp only [List.getElem?_zipWith', List.getElem?_map, shiftUp_getElem?, List.length_map]
  rcases Nat.lt_or_ge i df.length with h | h
  · have hi : df[i]? = some df[i] := List.getElem?_eq_getElem h
    simp only [hi, if_pos h]
    cases hdn : df[i + 1]? <;>
      simp [Option.map_map, Function.comp, hdn]
  · have hi : df[i]? = none := List.getElem?_eq_none h
    simp [hi, Nat.not_lt.mpr h]

theorem trades_orderflow_to_imbalances_length (df : List (ℚ × OrderflowRow))
    (ratio vol : ℚ) :
    (trades_orderflow_to_imbalances df ratio vol).length = df.length := by
  unfold trades_orderflow_to_imbalances
  simp [shiftUp]

/-- Turn the volume-filter `if` of the detector into a boolean conjunct. -/
theorem if_false_else_eq_and (P : Prop) [Decidable P] (x : Bool) :
    (if P then false else x) = (!decide P && x) := by
  by_cases h : P <;> simp [h]

/-- C1 fails on the code: with `imbalance_ratio = 3` and no volume filter,
the spec formula `bid_amount[0] / ask_amount[1] > 3` holds (the ratio is
100), yet the detector leaves `bid_imbalance[0]` false, because the code
divides the *trade count* columns `bid` / `ask` (here `1 / 1`), not the
amount columns. -/
theorem C1_counterexample :
    ((trades_orderflow_to_imbalances c1Profile 3 0)[0]?.map
      fun x => x.2.bid_imbalance) = some false ∧
    specAmountBidImbalance c1Profile 3 0 0 = true := by
  with_unfolding_all decide

/-- C1 (amended): for every bin `i` that has a next bin `i+1`, the detector
sets `bid_imbalance[i]` to true exactly when the *trade count* ratio
`bid[i] / ask[i+1]` exceeds `imbalance_ratio`, and `ask_imbalance[i]` to
true exactly when `ask[i+1] / bid[i]` exceeds it (float division: `x/0`
counts as exceeding for `x > 0` and `0/0` does not), subject to the
volume filter. -/
theorem C1_imbalance_flags_use_counts (df : List (ℚ × OrderflowRow))
    (ratio vol : ℚ) (i : ℕ) (pr nx : ℚ × OrderflowRow)
    (hi : df[i]? = some pr) (hn : df[i + 1]? = some nx) :
    ((trades_orderflow_to_imbalances df ratio vol)[i]?.map fun x => x.2) =
      some
        { bid_imbalance :=
            !decide (pr.2.total_volume < vol) &&
              (if (nx.2.ask : ℚ) = 0 then decide ((0 : ℚ) < (pr.2.bid : ℚ))
               else decide (ratio < (pr.2.bid : ℚ) / (nx.2.ask : ℚ)))
          ask_imbalance :=
            !decide (pr.2.total_volume < vol) &&
              (if (pr.2.bid : ℚ) = 0 then decide ((0 : ℚ) < (nx.2.ask : ℚ))
               else decide (ratio < (nx.2.ask : ℚ) / (pr.2.bid : ℚ))) } := by
  simp [trades_orderflow_to_imbalances_getElem?, hi, hn, ratSeriesGT,
    if_false_else_eq_and]

/-- Witness for C1 (amended) at a concrete two-bin profile: bin 0 has bid
count 2, bin 1 has ask count 1, ratio 1, so `2/1 > 1` raises the bid flag
and `1/2 > 1` fails for the ask flag. -/
theorem C1_imbalance_flags_use_counts_witness :
    ((trades_orderflow_to_imbalances
        [(1, ⟨0, 0, 2, 0, 0, 10, 2⟩), (2, ⟨0, 0, 0, 1, 0, 5, 1⟩)] 1 0)[0]?.map
      fun x => x.2) = some ⟨true, false⟩ := by
  refine (C1_imbalance_flags_use_counts
    [(1, ⟨0, 0, 2, 0, 0, 10, 2⟩), (2, ⟨0, 0, 0, 1, 0, 5, 1⟩)] 1 0 0
    (1, ⟨0, 0, 2, 0, 0, 10, 2⟩) (2, ⟨0, 0, 0, 1, 0, 5, 1⟩) rfl rfl).trans ?_
  with_unfolding_all decide

/-- C8: a bin whose `total_volume` is strictly below `imbalance_volume` has
both flags false, regardless of the computed ratios. -/
theorem C8_volume_filter_forces_false (df : List (ℚ × OrderflowRow))
    (ratio vol : ℚ) (i : ℕ) (pr : ℚ × OrderflowRow) (hi : df[i]? = some pr)
    (hv : pr.2.total_volume < vol) :
    ((trades_orderflow_to_imbalances df ratio vol)[i]?.map fun x => x.2) =
      some ⟨false, false⟩ := by
  rw [trades_orderflow_to_imbalances_getElem?, hi]
  simp [hv]

/-- Witness for C8: a bin with huge count ratio but `total_volume = 1 < 5`
keeps both flags false. -/
theorem C8_volume_filter_forces_false_witness :
    ((trades_orderflow_to_imbalances
        [(1, ⟨0, 0, 9, 0, 0, 1, 9⟩), (2, ⟨0, 0, 0, 1, 0, 5, 1⟩)] 2 5)[0]?.map
      fun x => x.2) = some ⟨false, false⟩ :=
  C8_volume_filter_forces_false
    [(1, ⟨0, 0, 9, 0, 0, 1, 9⟩), (2, ⟨0, 0, 0, 1, 0, 5, 1⟩)] 2 5 0
    (1, ⟨0, 0, 9, 0, 0, 1, 9⟩) rfl (by norm_num)

/-- C9: in every non-empty profile, the topmost (last, highest-price) row of
the imbalance table has both flags false: its shifted `ask` is `NaN`, and
the volume filter can only force `false` as well. -/
theorem C9_top_bin_flags_false (df : List (ℚ × OrderflowRow))
    (ratio vol : ℚ) (h : df ≠ []) :
    ((trades_orderflow_to_imbalances df ratio vol).getLast?.map fun x => x.2) =
      some ⟨false, false⟩ := by
  have hpos : 0 < df.length := List.length_pos.mpr h
  have hsucc : df.length - 1 + 1 = df.length := Nat.succ_pred_eq_of_pos hpos
  have hnone : df[df.length - 1 + 1]? = none := by
    rw [hsucc]; exact List.getElem?_eq_none (le_refl _)
  have hlast : df[df.length - 1]? = some df[df.length - 1] :=
    List.getElem?_eq_getElem (by omega)
  rw [List.getLast?_eq_getElem?, trades_orderflow_to_imbalances_length,
    trades_orderflow_to_imbalances_getElem?, hlast]
  simp [hnone]

/-- Witness for C9 on a concrete one-bin profile. -/
theorem C9_top_bin_flags_false_witness :
    ((trades_orderflow_to_imbalances
        [(7, ⟨1, 2, 1, 1, 1, 3, 2⟩)] 3 0).getLast?.map fun x => x.2) =
      some ⟨false, false⟩ :=
  C9_top_bin_flags_false [(7, ⟨1, 2, 1, 1, 1, 3, 2⟩)] 3 0 (by simp)

/-- C10: the division-by-zero policy of the detector, for a bin `i` with a
next bin that passes the volume filter: a positive numerator count over a
zero count is treated as infinite and raises the flag; `0/0` is
undefined-as-false; the embedding is a total function, so every input
yields well-defined booleans. -/
theorem C10_division_by_zero_policy (df : List (ℚ × OrderflowRow))
    (ratio vol : ℚ) (i : ℕ) (pr nx : ℚ × OrderflowRow)
    (hi : df[i]? = some pr) (hn : df[i + 1]? = some nx)
    (hv : ¬ pr.2.total_volume < vol) :
    (0 < pr.2.bid → nx.2.ask = 0 →
      ((trades_orderflow_to_imbalances df ratio vol)[i]?.map
        fun x => x.2.bid_imbalance) = some true) ∧
    (pr.2.bid = 0 → nx.2.ask = 0 →
      ((trades_orderflow_to_imbalances df ratio vol)[i]?.map fun x => x.2) =
        some ⟨false, false⟩) ∧
    (0 < nx.2.ask → pr.2.bid = 0 →
      ((trades_orderflow_to_imbalances df ratio vol)[i]?.map
        fun x => x.2.ask_imbalance) = some true) := by
  refine ⟨fun h1 h2 => ?_, fun h1 h2 => ?_, fun h1 h2 => ?_⟩ <;>
    simp [trades_orderflow_to_imbalances_getElem?, hi, hn, hv, ratSeriesGT,
      h1, h2, Nat.cast_pos]

/-- Witness for C10: bin 0 has bid count 3 and the next bin ask count 0, so
`3/0 = inf` raises the bid flag while `0/3 = 0` leaves the ask flag down. -/
theorem C10_division_by_zero_policy_witness :
    ((trades_orderflow_to_imbalances
        [(1, ⟨3, 0, 3, 0, -3, 3, 3⟩), (2, ⟨1, 0, 1, 0, -1, 1, 1⟩)] 5 1)[0]?.map
      fun x => x.2.bid_imbalance) = some true :=
  (C10_division_by_zero_policy
    [(1, ⟨3, 0, 3, 0, -3, 3, 3⟩), (2, ⟨1, 0, 1, 0, -1, 1, 1⟩)] 5 1 0
    (1, ⟨3, 0, 3, 0, -3, 3, 3⟩) (2, ⟨1, 0, 1, 0, -1, 1, 1⟩) rfl rfl
    (by norm_num)).1 (by norm_num) rfl

/-! ## Stacked-imbalance scanner: run-length characterization -/

theorem runsGo_length (r : ℕ) (bs : List Bool) :
    (runsGo r bs).length = bs.length := by
  induction bs generalizing r with
  | nil => rfl
  | cons b bs ih => cases b <;> simp [runsGo, ih]

theorem runLens_length (bs : List Bool) : (runLens bs).length = bs.length :=
  runsGo_length 0 bs

theorem groupIdsGo_cons (prev : Option ℕ) (gid x : ℕ) (xs : List ℕ) :
    groupIdsGo prev gid (x :: xs) =
      (if prev = some x then gid else gid + 1) ::
        groupIdsGo (some x) (if prev = some x then gid else gid + 1) xs := rfl

theorem cumcountGo_cons (seen : List ℕ) (x : ℕ) (xs : List ℕ) :
    cumcountGo seen (x :: xs) = seen.count x :: cumcountGo (seen ++ [x]) xs := rfl

theorem map_ind_true (bs : List Bool) :
    (true :: bs).map (fun b => if b then (1 : ℕ) else 0) =
      1 :: bs.map (fun b => if b then (1 : ℕ) else 0) := rfl

theorem map_ind_false (bs : List Bool) :
    (false :: bs).map (fun b => if b then (1 : ℕ) else 0) =
      0 :: bs.map (fun b => if b then (1 : ℕ) else 0) := rfl

theorem runsGo_cons_true (r : ℕ) (bs : List Bool) :
    runsGo r (true :: bs) = (r + 1) :: runsGo (r + 1) bs := rfl

theorem runsGo_cons_false (r : ℕ) (bs : List Bool) :
    runsGo r (false :: bs) = 0 :: runsGo 0 bs := rfl

/-- The pandas trick
`y * (y.groupby((y != y.shift()).cumsum()).cumcount() + 1)` computes run
lengths: generalized over the scanning state.  `seen` holds the ids already
emitted (all at most `gid`), and when the previous value is a `1` the
current id has been seen exactly `r` times. -/
theorem stacked_go_eq_runsGo (bs : List Bool) :
    ∀ (prev : Option ℕ) (gid : ℕ) (seen : List ℕ) (r : ℕ),
    (∀ id ∈ seen, id ≤ gid) →
    (prev = some 1 → seen.count gid = r) →
    (prev ≠ some 1 → r = 0) →
    List.zipWith (fun v c => v * (c + 1)) (bs.map fun b => if b then 1 else 0)
      (cumcountGo seen (groupIdsGo prev gid (bs.map fun b => if b then 1 else 0)))
    = runsGo r bs := by
  induction bs with
  | nil => intro prev gid seen r _ _ _; rfl
  | cons b bs ih =>
    intro prev gid seen r h1 h2 h3
    cases b with
    | true =>
      rw [map_ind_true, groupIdsGo_cons, runsGo_cons_true]
      by_cases hp : prev = some 1
      · rw [if_pos hp, cumcountGo_cons, List.zipWith_cons_cons, h2 hp, one_mul]
        refine congrArg (List.cons (r + 1)) ?_
        refine ih (some 1) gid (seen ++ [gid]) (r + 1) ?_ ?_ ?_
        · intro id hid
          rcases List.mem_append.mp hid with h | h
          · exact h1 id h
          · simp at h; omega
        · intro _; simp [List.count_append, h2 hp]
        · intro h; exact absurd rfl h
      · have hzero : seen.count (gid + 1) = 0 := by
          refine List.count_eq_zero.mpr fun hmem => ?_
          have := h1 _ hmem; omega
        have hr : r = 0 := h3 hp
        subst hr
        rw [if_neg hp, cumcountGo_cons, List.zipWith_cons_cons, hzero, one_mul]
        refine congrArg (List.cons (0 + 1)) ?_
        refine ih (some 1) (gid + 1) (seen ++ [gid + 1]) (0 + 1) ?_ ?_ ?_
        · intro id hid
          rcases List.mem_append.mp hid with h | h
          · have := h1 id h; omega
          · simp at h; omega
        · intro _; simp [List.count_append, hzero]
        · intro h; exact absurd rfl h
    | false =>
      rw [map_ind_false, groupIdsGo_cons, runsGo_cons_false]
      by_cases hp : prev = some 0
      · rw [if_pos hp, cumcountGo_cons, List.zipWith_cons_cons, zero_mul]
        refine congrArg (List.cons 0) ?_
        refine ih (some 0) gid (seen ++ [gid]) 0 ?_ ?_ ?_
        · intro id hid
          rcases List.mem_append.mp hid with h | h
          · exact h1 id h
          · simp at h; omega
        · intro h; simp at h
        · intro _; rfl
      · rw [if_neg hp, cumcountGo_cons, List.zipWith_cons_cons, zero_mul]
        refine congrArg (List.cons 0) ?_
        refine ih (some 0) (gid + 1) (seen ++ [gid + 1]) 0 ?_ ?_ ?_
        · intro id hid
          rcases List.mem_append.mp hid with h | h
          · have := h1 id h; omega
          · simp at h; omega
        · intro h; simp at h
        · intro _; rfl

/-- The stacked-run series of the scanner is exactly the run-length series
of the underlying boolean sequence. -/
theorem stackedSeries_eq_runLens (bs : List Bool) :
    stackedSeries (bs.map fun b => if b then 1 else 0) = runLens bs :=
  stacked_go_eq_runsGo bs none 0 [] 0 (by simp) (by simp) fun _ => rfl

/-- The scanner expressed through run lengths: its qualifying index list is
the claim's `qualifyingIdxs`, and the result is the price at the first
(bid direction) or last (ask direction, via `np.flipud`) qualifying index. -/
theorem stacked_imbalance_eq_qualifying (df : List (ℚ × ImbalanceRow))
    (useAsk : Bool) (range : ℤ) (should_reverse : Bool) :
    stacked_imbalance df useAsk range should_reverse =
      ((if should_reverse then
          (qualifyingIdxs (df.map fun pr =>
            if useAsk then pr.2.ask_imbalance else pr.2.bid_imbalance) range).getLast?
        else
          (qualifyingIdxs (df.map fun pr =>
            if useAsk then pr.2.ask_imbalance else pr.2.bid_imbalance) range).head?).bind
        fun idx => df[idx]?.map Prod.fst) := by
  simp only [stacked_imbalance, qualifyingIdxs]
  rw [stackedSeries_eq_runLens, runLens_length]
  cases should_reverse with
  | false => rfl
  | true => simp

/-- C2: for every imbalance table and integer `range`, with a position
qualifying iff the run of consecutive raised flags ending at it has length
at least `range`, the bid scan returns the price at the first qualifying
position in ascending order, the ask scan the price at the last qualifying
position in ascending order, and both return `none` (NaN) when no position
qualifies. -/
theorem C2_stacked_scan (df : List (ℚ × ImbalanceRow)) (range : ℤ) :
    (stacked_imbalance_bid df range =
      ((qualifyingIdxs (df.map fun pr => pr.2.bid_imbalance) range).head?).bind
        (fun idx => df[idx]?.map Prod.fst)) ∧
    (stacked_imbalance_ask df range =
      ((qualifyingIdxs (df.map fun pr => pr.2.ask_imbalance) range).getLast?).bind
        (fun idx => df[idx]?.map Prod.fst)) ∧
    (qualifyingIdxs (df.map fun pr => pr.2.bid_imbalance) range = [] →
      stacked_imbalance_bid df range = none) ∧
    (qualifyingIdxs (df.map fun pr => pr.2.ask_imbalance) range = [] →
      stacked_imbalance_ask df range = none) := by
  refine ⟨?_, ?_, fun he => ?_, fun he => ?_⟩
  · rw [stacked_imbalance_bid, stacked_imbalance_eq_qualifying]
    simp
  · rw [stacked_imbalance_ask, stacked_imbalance_eq_qualifying]
    simp
  · rw [stacked_imbalance_bid, stacked_imbalance_eq_qualifying]
    simp [he]
  · rw [stacked_imbalance_ask, stacked_imbalance_eq_qualifying]
    simp [he]

/-- Witness for C2's no-qualifying clauses on a one-row table: no run
reaches the threshold, so both scans return NaN. -/
theorem C2_stacked_scan_witness :
    stacked_imbalance_bid [((3 : ℚ), ⟨false, true⟩)] 1 = none ∧
    stacked_imbalance_ask [((3 : ℚ), ⟨false, true⟩)] 2 = none :=
  ⟨(C2_stacked_scan [((3 : ℚ), ⟨false, true⟩)] 1).2.2.1 (by decide),
   (C2_stacked_scan [((3 : ℚ), ⟨false, true⟩)] 2).2.2.2 (by decide)⟩

/-! ## Orchestrator claims -/

/-- C5: the spec's concrete scenario.  The volume profile of the three
trades at scale 0.5 has exactly the bins 100.0
(`bid_amount 1, ask_amount 2, delta 1, total_volume 3, total_trades 2`) and
100.5 (`bid_amount 0, ask_amount 5, delta 5, total_volume 5,
total_trades 1`), and the interval totals written by the orchestrator are
`bid 1, ask 7, delta 6, total_trades 3`. -/
theorem C5_concrete_scenario :
    trades_to_volumeprofile_with_total_delta_bid_ask c5Trades (1 / 2) =
      [(100, { bid_amount := 1, ask_amount := 2, bid := 1, ask := 1,
               delta := 1, total_volume := 3, total_trades := 2 }),
       (201 / 2, { bid_amount := 0, ask_amount := 5, bid := 0, ask := 1,
                   delta := 5, total_volume := 5, total_trades := 1 })] ∧
    (computeRow demoCfg c5Trades (mkRow 0)).bid = some 1 ∧
    (computeRow demoCfg c5Trades (mkRow 0)).ask = some 7 ∧
    (computeRow demoCfg c5Trades (mkRow 0)).delta = some 6 ∧
    (computeRow demoCfg c5Trades (mkRow 0)).total_trades = some 3 := by
  with_unfolding_all decide

/-- C6: a trade group whose candle start matches no dataframe row is
skipped: the dataframe and the cache come back exactly as they went in. -/
theorem C6_unmatched_group_skipped (cfg : OrderflowConfig) (nextDate : ℕ → ℕ)
    (df : List CandleRow) (cache : Cache) (cs : ℕ) (gts : List Trade)
    (h : ∀ r ∈ df, r.date ≠ cs) :
    processGroup cfg nextDate (df, cache) (cs, gts) = (df, cache) := by
  have hfind : df.find? (fun r => decide (r.date = cs)) = none := by
    refine List.find?_eq_none.mpr fun r hr => ?_
    simp [h r hr]
  simp only [processGroup]
  rw [hfind]

/-- Witness for C6: a one-row dataframe at date 5 and a group at start 7. -/
theorem C6_unmatched_group_skipped_witness :
    processGroup demoCfg (fun d => d + 1) ([mkRow 5], []) (7, []) =
      ([mkRow 5], []) :=
  C6_unmatched_group_skipped demoCfg (fun d => d + 1) [mkRow 5] [] 7 []
    (by decide)

/-- C3: cache maintenance.  Outside `DRY_RUN`/`LIVE` the maintenance step
never evicts; in those modes it drops exactly the earliest-inserted entry
(the head of the insertion-ordered list) when the cache exceeds
`cache_size` and nothing otherwise; a cache hit leaves the cache exactly
as it was (no recency refresh); and a miss appends the new entry at the
tail before maintenance, so the evicted entry is never the newly inserted
one but always the head. -/
theorem C3_cache_eviction :
    (∀ (rm : RunMode) (n : ℕ) (c : Cache), rm ≠ RunMode.dry_run →
      rm ≠ RunMode.live → maintainCache rm n c = c) ∧
    (∀ (rm : RunMode) (n : ℕ) (c : Cache),
      (rm = RunMode.dry_run ∨ rm = RunMode.live) → n < c.length →
      maintainCache rm n c = c.tail) ∧
    (∀ (rm : RunMode) (n : ℕ) (c : Cache),
      (rm = RunMode.dry_run ∨ rm = RunMode.live) → c.length ≤ n →
      maintainCache rm n c = c) ∧
    (∀ (cfg : OrderflowConfig) (nextDate : ℕ → ℕ) (df : List CandleRow)
      (cache : Cache) (cs : ℕ) (gts : List Trade) (r0 entry : CandleRow),
      df.find? (fun r => decide (r.date = cs)) = some r0 →
      cacheLookup cache (cs, nextDate cs) = some entry →
      (processGroup cfg nextDate (df, cache) (cs, gts)).2 = cache) ∧
    (∀ (cfg : OrderflowConfig) (nextDate : ℕ → ℕ) (df : List CandleRow)
      (cache : Cache) (cs : ℕ) (gts : List Trade) (r0 : CandleRow),
      df.find? (fun r => decide (r.date = cs)) = some r0 →
      cacheLookup cache (cs, nextDate cs) = none →
      (processGroup cfg nextDate (df, cache) (cs, gts)).2 =
        maintainCache cfg.runmode cfg.cache_size
          (cache ++ [((cs, nextDate cs), computeRow cfg gts r0)])) := by
  refine ⟨?_, ?_, ?_, ?_, ?_⟩
  · intro rm n c h1 h2
    unfold maintainCache
    rw [if_neg]
    rintro ⟨h | h, -⟩ <;> [exact h1 h; exact h2 h]
  · intro rm n c h1 h2
    unfold maintainCache
    rw [if_pos ⟨h1, h2⟩]
  · intro rm n c h1 h2
    unfold maintainCache
    rw [if_neg]
    rintro ⟨-, hlt⟩
    omega
  · intro cfg nextDate df cache cs gts r0 entry hfind hhit
    simp only [processGroup]
    rw [hfind, hhit]
  · intro cfg nextDate df cache cs gts r0 hfind hmiss
    have hnotmem : cache.any (fun kv => decide (kv.1 = (cs, nextDate cs))) = false := by
      rw [List.any_eq_false]
      intro kv hkv
      simp only [decide_eq_true_eq]
      intro hk
      have : cache.find? (fun kv => decide (kv.1 = (cs, nextDate cs))) ≠ none := by
        intro hnone
        have := List.find?_eq_none.mp hnone kv hkv
        simp [hk] at this
      rcases hf : cache.find? (fun kv => decide (kv.1 = (cs, nextDate cs))) with _ | v
      · exact this hf
      · unfold cacheLookup at hmiss
        rw [hf] at hmiss
        simp at hmiss
    simp only [processGroup]
    rw [hfind, hmiss]
    unfold cacheInsert
    rw [hnotmem]
    rfl

/-- Witness for C3 at concrete caches: no eviction in backtest mode, the
oldest entry alone leaves in live mode, and a hit keeps the cache intact. -/
theorem C3_cache_eviction_witness :
    maintainCache RunMode.backtest 0 [((0, 1), mkRow 0)] = [((0, 1), mkRow 0)] ∧
    maintainCache RunMode.live 1 [((0, 1), mkRow 0), ((1, 2), mkRow 1)] =
      [((1, 2), mkRow 1)] ∧
    (processGroup demoCfg (fun d => d + 1)
      ([mkRow 5], [((5, 6), mkRow 5)]) (5, [])).2 = [((5, 6), mkRow 5)] :=
  ⟨C3_cache_eviction.1 RunMode.backtest 0 [((0, 1), mkRow 0)]
      (by decide) (by decide),
   C3_cache_eviction.2.1 RunMode.live 1 [((0, 1), mkRow 0), ((1, 2), mkRow 1)]
      (Or.inr rfl) (by decide),
   C3_cache_eviction.2.2.2.1 demoCfg (fun d => d + 1) [mkRow 5]
      [((5, 6), mkRow 5)] 5 [] (mkRow 5) (mkRow 5) (by with_unfolding_all decide)
      (by with_unfolding_all decide)⟩

/-- C4: any exception escaping the processing body is logged and re-raised
as a `DependencyException` wrapping the original cause, and the only
successful outcome is the body's own: there is no partial-success result. -/
theorem C4_dependency_failure (cfg : OrderflowConfig)
    (nextDate floorDate : ℕ → ℕ) (cache : Cache) (df : List CandleRow)
    (ts : List Trade) (hne : ts ≠ []) :
    (∀ e, populateBody cfg nextDate floorDate cache (df.map initRow) ts =
        Except.error e →
      populate_dataframe_with_trades cfg nextDate floorDate cache df (some ts) =
        Except.error (FtError.dependencyException e)) ∧
    (∀ out, populate_dataframe_with_trades cfg nextDate floorDate cache df
        (some ts) = Except.ok out →
      populateBody cfg nextDate floorDate cache (df.map initRow) ts =
        Except.ok out) := by
  have hno : ts.isEmpty = false := by
    cases ts with
    | nil => exact absurd rfl hne
    | cons a l => rfl
  constructor
  · intro e he
    simp only [populate_dataframe_with_trades, hno, Bool.false_eq_true,
      if_false, he]
  · intro out hout
    simp only [populate_dataframe_with_trades, hno, Bool.false_eq_true,
      if_false] at hout
    cases hbody : populateBody cfg nextDate floorDate cache (df.map initRow) ts with
    | ok v =>
      rw [hbody] at hout
      simpa using hout
    | error e => rw [hbody] at hout; exact absurd hout (by simp)

/-- Witness for C4: a nonempty trade list against an empty dataframe makes
`dataframe.tail(max_candles).date.iat[0]` raise, and the caller sees it
wrapped as a `DependencyException`. -/
theorem C4_dependency_failure_witness :
    populate_dataframe_with_trades demoCfg (fun d => d + 1) (fun d => d) [] []
      (some [⟨0, 1, 1, "buy"⟩]) =
      Except.error (FtError.dependencyException PyError.indexError) :=
  (C4_dependency_failure demoCfg (fun d => d + 1) (fun d => d) [] []
    [⟨0, 1, 1, "buy"⟩] (by simp)).1 PyError.indexError rfl

/-! ## Frame lemmas for the per-group loop -/

theorem writeAll_getElem?_ne (d : ℕ) (v : CandleRow) (df : List CandleRow)
    (i : ℕ) (r : CandleRow) (hi : df[i]? = some r) (hne : r.date ≠ d) :
    (writeAll d v df)[i]? = some r := by
  unfold writeAll
  rw [List.getElem?_map, hi]
  simp [hne]

theorem writeFirst_getElem?_ne (d : ℕ) (v : CandleRow) :
    ∀ (df : List CandleRow) (i : ℕ) (r : CandleRow),
      df[i]? = some r → r.date ≠ d → (writeFirst d v df)[i]? = some r := by
  intro df
  induction df with
  | nil => intro i r hi _; simp at hi
  | cons r0 rs ih =>
    intro i r hi hne
    unfold writeFirst
    by_cases h0 : r0.date = d
    · rw [if_pos h0]
      cases i with
      | zero =>
        simp only [List.getElem?_cons_zero, Option.some.injEq] at hi
        subst hi
        exact absurd h0 hne
      | succ j => simpa using hi
    · rw [if_neg h0]
      cases i with
      | zero => simpa using hi
      | succ j =>
        simp only [List.getElem?_cons_succ] at hi ⊢
        exact ih j r hi hne

/-- Folding the per-group loop never touches a row whose date is not among
the group keys. -/
theorem foldl_processGroup_preserves (cfg : OrderflowConfig)
    (nextDate : ℕ → ℕ) :
    ∀ (groups : List (ℕ × List Trade)) (df : List CandleRow) (cache : Cache)
      (i : ℕ) (r : CandleRow),
      df[i]? = some r → (∀ g ∈ groups, g.1 ≠ r.date) →
      ((groups.foldl (processGroup cfg nextDate) (df, cache)).1)[i]? = some r := by
  intro groups
  induction groups with
  | nil => intro df cache i r hi _; simpa using hi
  | cons g gs ih =>
    intro df cache i r hi hg
    rw [List.foldl_cons]
    have hkey : g.1 ≠ r.date := hg g (List.mem_cons_self g gs)
    have hstep : ((processGroup cfg nextDate (df, cache) g).1)[i]? = some r := by
      simp only [processGroup]
      cases hf : df.find? (fun row => decide (row.date = g.1)) with
      | none => simpa using hi
      | some r0 =>
        cases hl : cacheLookup cache (g.1, nextDate g.1) with
        | some entry =>
          simpa using writeAll_getElem?_ne g.1 entry df i r hi
            fun hd => hkey hd.symm
        | none =>
          simpa using writeFirst_getElem?_ne g.1 (computeRow cfg g.2 r0) df i r
            hi fun hd => hkey hd.symm
    exact ih (processGroup cfg nextDate (df, cache) g).1
      (processGroup cfg nextDate (df, cache) g).2 i r hstep
      fun g' hg' => hg g' (List.mem_cons_of_mem g hg')

theorem mem_insertSorted {α : Type} [LinearOrder α] (p a : α) :
    ∀ (l : List α), a ∈ insertSorted p l ↔ a = p ∨ a ∈ l := by
  intro l
  induction l with
  | nil => simp [insertSorted]
  | cons q qs ih =>
    unfold insertSorted
    by_cases h : p ≤ q
    · rw [if_pos h]
      simp [List.mem_cons]
    · rw [if_neg h]
      simp only [List.mem_cons, ih]
      tauto

theorem mem_sortAsc {α : Type} [LinearOrder α] (a : α) :
    ∀ (l : List α), a ∈ sortAsc l ↔ a ∈ l := by
  intro l
  induction l with
  | nil => simp [sortAsc]
  | cons x xs ih =>
    have hx : sortAsc (x :: xs) = insertSorted x (sortAsc xs) := rfl
    rw [hx, mem_insertSorted]
    simp only [List.mem_cons, ih]

/-- Every group key produced by the grouping step is the resolved candle
start of one of the trades. -/
theorem groupTrades_key_mem (floorDate : ℕ → ℕ) (trades : List Trade)
    (g : ℕ × List Trade) (hg : g ∈ groupTrades floorDate trades) :
    ∃ t ∈ trades, floorDate t.date = g.1 := by
  unfold groupTrades at hg
  rcases List.mem_map.mp hg with ⟨k, hk, rfl⟩
  rw [mem_sortAsc] at hk
  rcases List.mem_map.mp (List.mem_dedup.mp hk) with ⟨t, ht, hft⟩
  exact ⟨t, ht, hft⟩

/-- C7: with no trades (`None` or the empty table) the orchestrator
returns the candle table with every added column unset on every row and
the cache untouched; and in general every candle row matched by no trade
group keeps all its added fields at the unset value, never zero. -/
theorem C7_no_trades_rows_unset :
    (∀ (cfg : OrderflowConfig) (nextDate floorDate : ℕ → ℕ) (cache : Cache)
       (df : List CandleRow),
      populate_dataframe_with_trades cfg nextDate floorDate cache df none =
        Except.ok (df.map initRow, cache)) ∧
    (∀ (cfg : OrderflowConfig) (nextDate floorDate : ℕ → ℕ) (cache : Cache)
       (df : List CandleRow),
      populate_dataframe_with_trades cfg nextDate floorDate cache df
        (some []) = Except.ok (df.map initRow, cache)) ∧
    (∀ r : CandleRow, rowUnset (initRow r)) ∧
    (∀ (cfg : OrderflowConfig) (nextDate floorDate : ℕ → ℕ) (cache : Cache)
       (df : List CandleRow) (ts : List Trade)
       (out : List CandleRow × Cache) (i : ℕ) (r : CandleRow),
      populate_dataframe_with_trades cfg nextDate floorDate cache df
        (some ts) = Except.ok out →
      df[i]? = some r →
      (∀ t ∈ ts, floorDate t.date ≠ r.date) →
      out.1[i]? = some (initRow r)) := by
  refine ⟨fun _ _ _ _ _ => rfl, fun _ _ _ _ _ => rfl,
    fun r => ⟨rfl, rfl, rfl, rfl, rfl, rfl, rfl, rfl, rfl, rfl, rfl⟩, ?_⟩
  intro cfg nextDate floorDate cache df ts out i r hout hi hno
  by_cases hemp : ts.isEmpty
  · simp only [populate_dataframe_with_trades, hemp, if_true,
      Except.ok.injEq] at hout
    rw [← hout]
    rw [List.getElem?_map, hi]
    rfl
  · rw [Bool.not_eq_true] at hemp
    simp only [populate_dataframe_with_trades, hemp, Bool.false_eq_true,
      if_false] at hout
    cases hbody : populateBody cfg nextDate floorDate cache (df.map initRow) ts with
    | error e => rw [hbody] at hout; exact absurd hout (by simp)
    | ok v =>
      rw [hbody] at hout
      simp at hout
      subst hout
      unfold populateBody at hbody
      cases htail : (listTail cfg.max_candles (df.map initRow)).head? with
      | none => rw [htail] at hbody; exact absurd hbody (by simp)
      | some ftr =>
        rw [htail] at hbody
        simp only [Except.ok.injEq] at hbody
        rw [← hbody]
        refine foldl_processGroup_preserves cfg nextDate _ (df.map initRow)
          cache i (initRow r) ?_ ?_
        · rw [List.getElem?_map, hi]
          rfl
        · intro g hgmem hgdate
          rcases groupTrades_key_mem _ _ g hgmem with ⟨t, htmem, hft⟩
          exact hno t (List.mem_filter.mp htmem).1 (hft.symm ▸ hgdate)

/-- Witness for C7's frame part: one candle at date 0, one trade resolving
to candle start 100; the group is skipped and row 0 stays fully unset. -/
theorem C7_no_trades_rows_unset_witness :
    (([initRow (mkRow 0)], ([] : Cache)) : List CandleRow × Cache).1[0]? =
      some (initRow (mkRow 0)) :=
  C7_no_trades_rows_unset.2.2.2 demoCfg (fun d => d + 1) (fun d => d) []
    [mkRow 0] [⟨100, 1, 1, "buy"⟩] ([initRow (mkRow 0)], []) 0 (mkRow 0)
    (by with_unfolding_all rfl) rfl (by decide)

end Orderflow
